import Mathlib

/-!
# libxenon `drivers/threads/threads.h`

A shallow embedding of the thread/processor control-block declarations of
`threads.h` and of the public operations declared there.

* Part 1 embeds the C declarations themselves (types, member order, array
  lengths) together with the record-layout rule that `#pragma pack(push, 1)`
  selects, so that sizes and offsets are *computed* from the declarations.
* Part 2 embeds the integer conversions that the declared parameter, result
  and field types force on a value.
* Part 3 models the operations whose bodies are not part of the header.
-/

namespace Xenon

/-! ## Part 1: declarations and record layout -/

mutual
/-- The C object types that occur in `threads.h`.  Every object pointer and
function pointer (`struct _THREAD *`, `thread_interrupt_proc`, `void *`, ...) is
a `pointer`. -/
inductive CType where
  | uchar
  | int
  | uint
  | longlong
  | ulonglong
  | double
  | pointer
  | array (elem : CType) (count : Nat)
  | struct (members : Members)
/-- The member declarations of a `struct`, in declaration order. -/
inductive Members where
  | nil
  | cons (name : String) (type : CType) (rest : Members)
end

/-- The constant `#define MAX_THREAD_COUNT 256`. -/
def MAX_THREAD_COUNT : Nat := 256

/-- The packing in force for every structure of the header:
`#pragma pack(push, 1)`. -/
def PACK : Nat := 1

/-- The packing alignment that would be in force without the pragma (anything at
least as large as the largest natural alignment). -/
def NOPACK : Nat := 8

/-- Round `off` up to the next multiple of `a`. -/
def alignUp (off a : Nat) : Nat := (off + a - 1) / a * a

mutual
/-- Alignment requirement of a type when the packing alignment is `pack`
(32-bit PowerPC: `int` and pointers 4, `long long` and `double` 8). -/
def CType.align (pack : Nat) : CType → Nat
  | .uchar => 1
  | .int => 4
  | .uint => 4
  | .longlong => 8
  | .ulonglong => 8
  | .double => 8
  | .pointer => 4
  | .array e _ => e.align pack
  | .struct ms => ms.align pack
/-- Alignment of a structure: the largest member alignment, each capped by the
packing alignment. -/
def Members.align (pack : Nat) : Members → Nat
  | .nil => 1
  | .cons _ t r => max (min pack (t.align pack)) (r.align pack)
end

mutual
/-- The value of `sizeof` for a type when the packing alignment is `pack` (4-byte
`int` and pointers, 8-byte `long long` and `double`). -/
def CType.size (pack : Nat) : CType → Nat
  | .uchar => 1
  | .int => 4
  | .uint => 4
  | .longlong => 8
  | .ulonglong => 8
  | .double => 8
  | .pointer => 4
  | .array e n => n * e.size pack
  | .struct ms => alignUp (ms.endOffset pack 0) (ms.align pack)
/-- The offset just past the last member when the members are laid out in order
starting at `off`, each at the next multiple of its (capped) alignment. -/
def Members.endOffset (pack : Nat) (off : Nat) : Members → Nat
  | .nil => off
  | .cons _ t r =>
      r.endOffset pack (alignUp off (min pack (t.align pack)) + t.size pack)
end

/-- One laid-out member: its name, byte offset, byte size and type. -/
structure Slot where
  name : String
  offset : Nat
  size : Nat
  type : CType

/-- Lay the members out in order starting at `off`. -/
def Members.slots (pack : Nat) (off : Nat) : Members → List Slot
  | .nil => []
  | .cons n t r =>
      let o := alignUp off (min pack (t.align pack))
      ⟨n, o, t.size pack, t⟩ :: r.slots pack (o + t.size pack)

/-- The laid-out members of a structure type (nothing for other types). -/
def CType.slots (pack : Nat) : CType → List Slot
  | .struct ms => ms.slots pack 0
  | _ => []

/-- Find a member by name. -/
def CType.slot? (pack : Nat) (t : CType) (name : String) : Option Slot :=
  (t.slots pack).find? (fun s => s.name == name)

/-- The value of `offsetof(t, name)`. -/
def CType.offsetOf (pack : Nat) (t : CType) (name : String) : Option Nat :=
  (t.slot? pack name).map Slot.offset

/-- The value of `offsetof(t, name[i])` for an array member; `none` when `i` is
not an index of the array (or `name` is not an array member). -/
def CType.elemOffset (pack : Nat) (t : CType) (name : String) (i : Nat) : Option Nat :=
  match t.slot? pack name with
  | some ⟨_, o, _, .array e n⟩ => if i < n then some (o + i * e.size pack) else none
  | _ => none

/-- The name/offset pairs of a structure, in declaration order. -/
def CType.offsets (pack : Nat) (t : CType) : List (String × Nat) :=
  (t.slots pack).map (fun s => (s.name, s.offset))

/-- The sum of the member sizes of a structure. -/
def CType.memberBytes (pack : Nat) (t : CType) : Nat :=
  ((t.slots pack).map Slot.size).sum

/-- No byte lies before the first member or between two consecutive members:
every member starts where `next` says, the first at `next`. -/
def contiguousFrom (next : Nat) : List Slot → Bool
  | [] => true
  | s :: r => s.offset == next && contiguousFrom (s.offset + s.size) r

/-- The structure has no padding: members are contiguous from offset 0 and the
last one ends at `sizeof`. -/
def CType.noPadding (pack : Nat) (t : CType) : Bool :=
  contiguousFrom 0 (t.slots pack) && t.memberBytes pack == t.size pack

/-- The declaration
`struct _PROCESSOR_FPU_VPU_SAVE { double Fpr[32]; double Fpscr; }`. -/
def PROCESSOR_FPU_VPU_SAVE.decl : CType :=
  .struct <|
    .cons "Fpr" (.array .double 32) <|
    .cons "Fpscr" .double <|
    .nil

/-- The declaration `struct _CONTEXT`. -/
def CONTEXT.decl : CType :=
  .struct <|
    .cons "Msr" .ulonglong <|
    .cons "Iar" .ulonglong <|
    .cons "Lr" .ulonglong <|
    .cons "Ctr" .ulonglong <|
    .cons "Gpr" (.array .ulonglong 32) <|
    .cons "Cr" .ulonglong <|
    .cons "Xer" .ulonglong <|
    .cons "FpuVpu" PROCESSOR_FPU_VPU_SAVE.decl <|
    .nil

/-- The declaration `struct _PROCESSOR_DATA_BLOCK`. -/
def PROCESSOR_DATA_BLOCK.decl : CType :=
  .struct <|
    .cons "RegisterSave" (.array .ulonglong 32) <|
    .cons "LRSave" .ulonglong <|
    .cons "CTRSave" .ulonglong <|
    .cons "CRSave" .ulonglong <|
    .cons "XERSave" .ulonglong <|
    .cons "IARSave" .ulonglong <|
    .cons "MSRSave" .ulonglong <|
    .cons "FPUVPUSave" .pointer <|
    .cons "DAR" .uint <|
    .cons "Reserved1" .ulonglong <|
    .cons "CurrentProcessor" .uchar <|
    .cons "Irq" .uchar <|
    .cons "Reserved2" (.array .uchar 2) <|
    .cons "FirstThread" .pointer <|
    .cons "LastThread" .pointer <|
    .cons "FirstSwapProcess" .pointer <|
    .cons "LastSwapProcess" .pointer <|
    .cons "SwapProcessLock" .uint <|
    .cons "InterruptTable" (.array .pointer 0x20) <|
    .cons "IpiLock" .uint <|
    .cons "IpiProc" .pointer <|
    .cons "IpiContext" .uint <|
    .cons "IpiIncrement" .pointer <|
    .cons "QuantumEnd" .longlong <|
    .cons "CurrentThread" .pointer <|
    .cons "Lock" .uint <|
    .cons "ExceptionRecursion" .uint <|
    .nil

/-- The declaration `struct _THREAD`. -/
def THREAD.decl : CType :=
  .struct <|
    .cons "Context" CONTEXT.decl <|
    .cons "ThisProcessor" .pointer <|
    .cons "NextThread" .pointer <|
    .cons "PreviousThread" .pointer <|
    .cons "NextThreadFull" .pointer <|
    .cons "PreviousThreadFull" .pointer <|
    .cons "PreviousThreadReady" .pointer <|
    .cons "NextThreadReady" .pointer <|
    .cons "Valid" .uchar <|
    .cons "Priority" .uchar <|
    .cons "PriorityBoost" .uchar <|
    .cons "MaxPriorityBoost" .uchar <|
    .cons "ThreadIsRunning" .uchar <|
    .cons "SuspendCount" .uchar <|
    .cons "HandleOpen" .uchar <|
    .cons "ThreadId" .uchar <|
    .cons "ThreadTerminated" .uchar <|
    .cons "Reserved" (.array .uchar 3) <|
    .cons "DebugData" .pointer <|
    .cons "SleepTime" .longlong <|
    .cons "StackBase" .pointer <|
    .cons "StackSize" .uint <|
    .nil

/-! ## Part 2: integer types, their values and conversions -/

/-- Width in bits of an object of type `t` (8-bit bytes). -/
def CType.bits (t : CType) : Nat := 8 * t.size PACK

/-- Whether `t` is a signed integer type (`int`, `long long`). -/
def CType.isSigned : CType → Bool
  | .int => true
  | .longlong => true
  | _ => false

/-- The values an object of integer type `t` can hold: `[0, 2^bits)` for an
unsigned type, `[-2^(bits-1), 2^(bits-1))` for a signed one. -/
def CType.holds (t : CType) (v : Int) : Bool :=
  if t.isSigned then
    decide (-(2 ^ (t.bits - 1) : Int) ≤ v ∧ v < 2 ^ (t.bits - 1))
  else
    decide (0 ≤ v ∧ v < 2 ^ t.bits)

/-- The C conversion of an integer value to integer type `t`: reduction modulo
`2^bits` into the range of `t` (two's complement for the signed types). -/
def CType.convert (t : CType) (v : Int) : Int :=
  if t.isSigned then
    (v + 2 ^ (t.bits - 1)) % 2 ^ t.bits - 2 ^ (t.bits - 1)
  else
    v % 2 ^ t.bits

/-- The value `v` is one that member `name` of structure `decl` can hold,
according to the member's declared type. -/
def fieldHolds (decl : CType) (name : String) (v : Int) : Bool :=
  match decl.slot? PACK name with
  | some s => s.type.holds v
  | none => false

/-- The integer members of a `THREAD` object that the operations below read or
write.  The saved context, the list links and the other pointers are left
out. -/
structure THREAD where
  Valid : Int
  Priority : Int
  PriorityBoost : Int
  MaxPriorityBoost : Int
  ThreadIsRunning : Int
  SuspendCount : Int
  HandleOpen : Int
  ThreadId : Int
  ThreadTerminated : Int
  SleepTime : Int
  StackSize : Int
  deriving DecidableEq

/-- Every modelled member holds a value of its declared type. -/
def THREAD.wf (t : THREAD) : Bool :=
  fieldHolds THREAD.decl "Valid" t.Valid
  && fieldHolds THREAD.decl "Priority" t.Priority
  && fieldHolds THREAD.decl "PriorityBoost" t.PriorityBoost
  && fieldHolds THREAD.decl "MaxPriorityBoost" t.MaxPriorityBoost
  && fieldHolds THREAD.decl "ThreadIsRunning" t.ThreadIsRunning
  && fieldHolds THREAD.decl "SuspendCount" t.SuspendCount
  && fieldHolds THREAD.decl "HandleOpen" t.HandleOpen
  && fieldHolds THREAD.decl "ThreadId" t.ThreadId
  && fieldHolds THREAD.decl "ThreadTerminated" t.ThreadTerminated
  && fieldHolds THREAD.decl "SleepTime" t.SleepTime
  && fieldHolds THREAD.decl "StackSize" t.StackSize

/-- The integer members of a `PROCESSOR_DATA_BLOCK` object that the interrupt
level operations read or write. -/
structure PROCESSOR_DATA_BLOCK where
  CurrentProcessor : Int
  Irq : Int
  deriving DecidableEq

/-- Every modelled member holds a value of its declared type. -/
def PROCESSOR_DATA_BLOCK.wf (p : PROCESSOR_DATA_BLOCK) : Bool :=
  fieldHolds PROCESSOR_DATA_BLOCK.decl "CurrentProcessor" p.CurrentProcessor
  && fieldHolds PROCESSOR_DATA_BLOCK.decl "Irq" p.Irq

/-- What a caller of `int thread_suspend(PTHREAD)` / `int thread_resume(PTHREAD)`
receives when the function reports the `unsigned char SuspendCount` value `c`:
`c` converted to the result type `int`. -/
def suspendResult (c : Int) : Int := CType.int.convert c

/-- The path an interrupt level takes through the declared types: read from the
`unsigned char Irq` member, returned as the `int` result of
`thread_raise_irql` / `thread_spinlock`, passed as the `unsigned int irql`
parameter of `thread_lower_irql` / `thread_unlock`, stored into the
`unsigned char Irq` member. -/
def irqlRoundTrip (v : Int) : Int :=
  CType.uchar.convert (CType.uint.convert (CType.int.convert v))

/-! ## Part 3: the operations

`threads.h` only declares the operations; their bodies are not part of the
header.  The definitions below follow the prose description of each operation.
List relinking (ready list, per-processor list) is outside these models: they
cover the counters and levels that the operations read and write. -/

/-- Modelled from the spec: the saturation bound of `thread_suspend` is not in
the header.  The suspend count is "bounded to an 8-bit range", so its maximum is
the largest value of the `unsigned char SuspendCount` member. -/
def SUSPEND_COUNT_MAX : Int := 2 ^ CType.uchar.bits - 1

/-- Modelled from the spec: the body of `thread_suspend` is missing.  "Each
suspend increments [the suspend count]"; it "return[s] the count observed before
the change; suspend fails (returns -1, no-op) if the count is already saturated
at its maximum". -/
def thread_suspend (pthr : THREAD) : Int × THREAD :=
  if pthr.SuspendCount = SUSPEND_COUNT_MAX then
    (-1, pthr)
  else
    (suspendResult pthr.SuspendCount,
      { pthr with SuspendCount := CType.uchar.convert (pthr.SuspendCount + 1) })

/-- Modelled from the spec: the body of `thread_resume` is missing.  "Each
resume decrements [the suspend count]"; it "return[s] the count observed before
the change; ... resume fails (returns -1, no-op) if the count is already 0". -/
def thread_resume (pthr : THREAD) : Int × THREAD :=
  if pthr.SuspendCount = 0 then
    (-1, pthr)
  else
    (suspendResult pthr.SuspendCount,
      { pthr with SuspendCount := CType.uchar.convert (pthr.SuspendCount - 1) })

/-- The calling core: its control block and the lock words it can address
(`0` is a free lock). -/
structure Core where
  block : PROCESSOR_DATA_BLOCK
  words : Int → Int

/-- The level `thread_spinlock` raises to: "Raises IRQL to 2, then locks". -/
def DISPATCH_LEVEL : Int := 2

/-- Store a level into the `unsigned char Irq` member of the core's block. -/
def Core.setIrq (c : Core) (irql : Int) : Core :=
  { c with block := { c.block with Irq := CType.uchar.convert irql } }

/-- Store a value into the lock word at `addr`. -/
def Core.setWord (c : Core) (addr v : Int) : Core :=
  { c with words := fun a => if a = addr then v else c.words a }

/-- Modelled from the spec: the body of `thread_raise_irql` is missing.  It sets
the core's level to `irql` and "returns the previous level so callers can restore
it exactly". -/
def thread_raise_irql (irql : Int) (c : Core) : Int × Core :=
  (CType.int.convert c.block.Irq, c.setIrq irql)

/-- Modelled from the spec: the body of `thread_lower_irql` is missing.  It sets
the core's level to `irql`.  The spec does not say what its `int` result is, so
the model has no result. -/
def thread_lower_irql (irql : Int) (c : Core) : Core :=
  c.setIrq irql

/-- Modelled from the spec: the lock loop of `thread_spinlock` is missing.  It
"busy-retries an atomic acquire on `*addr`": each attempt takes the lock when the
word is free and otherwise retries; `fuel` bounds the number of attempts. -/
def spinAcquire : Nat → Int → Core → Option Core
  | 0, _, _ => none
  | fuel + 1, addr, c =>
      if c.words addr = 0 then some (c.setWord addr 1) else spinAcquire fuel addr c

/-- Modelled from the spec: the body of `thread_spinlock` is missing.  It "raises
IRQL to a fixed dispatch level ... then busy-retries an atomic acquire on
`*addr` ...  Returns the previous IRQL". -/
def thread_spinlock (fuel : Nat) (addr : Int) (c : Core) : Option (Int × Core) :=
  let r := thread_raise_irql (CType.uint.convert DISPATCH_LEVEL) c
  (spinAcquire fuel addr r.2).map (fun c2 => (r.1, c2))

/-- Modelled from the spec: the body of `thread_unlock` is missing.  It "releases
the atomic flag then restores IRQL to exactly that value". -/
def thread_unlock (addr : Int) (irql : Int) (c : Core) : Core :=
  thread_lower_irql irql (c.setWord addr 0)

/-- A properly nested use of the level-saving pairs: nothing, or a
`thread_spinlock`/`thread_unlock` pair or a `thread_raise_irql`/`thread_lower_irql`
pair around an inner nest, followed by a further nest. -/
inductive Nest where
  | done
  | spin (addr : Int) (inner rest : Nest)
  | raise (irql : Int) (inner rest : Nest)

/-- What a run of a nest observes: the level in force just before each
acquisition and the level in force just after each release. -/
inductive Event where
  | acquire (before : Int)
  | release (after : Int)
  deriving DecidableEq

/-- Run a nest.  Every release is passed the value its acquisition returned,
converted to the `unsigned int` parameter type. -/
def Nest.run (fuel : Nat) : Nest → Core → Option (List Event × Core)
  | .done, c => some ([], c)
  | .spin addr inner rest, c =>
      match thread_spinlock fuel addr c with
      | none => none
      | some (irql, c1) =>
        match inner.run fuel c1 with
        | none => none
        | some (log1, c2) =>
          let c3 := thread_unlock addr (CType.uint.convert irql) c2
          match rest.run fuel c3 with
          | none => none
          | some (log2, c4) =>
            some (Event.acquire c.block.Irq :: log1 ++ Event.release c3.block.Irq :: log2, c4)
  | .raise level inner rest, c =>
      let r := thread_raise_irql (CType.uint.convert level) c
      match inner.run fuel r.2 with
      | none => none
      | some (log1, c2) =>
        let c3 := thread_lower_irql (CType.uint.convert r.1) c2
        match rest.run fuel c3 with
        | none => none
        | some (log2, c4) =>
          some (Event.acquire c.block.Irq :: log1 ++ Event.release c3.block.Irq :: log2, c4)

/-- Check a log against a stack of outstanding acquisitions: every release must
restore the level seen before the most recent outstanding acquisition, and at the
end nothing may be outstanding beyond `stack`. -/
def restoresLIFO : List Int → List Event → List Int → Bool
  | stack, [], final => stack == final
  | stack, Event.acquire v :: log, final => restoresLIFO (v :: stack) log final
  | v :: stack, Event.release w :: log, final => v == w && restoresLIFO stack log final
  | [], Event.release _ :: _, _ => false

/-- Every lock a nest spins on is free when it is reached, given the lock words
`words` at the start: it is free there and no enclosing pair of the nest holds
it. -/
def Nest.acquirable : Nest → (Int → Int) → Bool
  | .done, _ => true
  | .spin addr inner rest, words =>
      decide (words addr = 0)
        && inner.acquirable (fun a => if a = addr then 1 else words a)
        && rest.acquirable words
  | .raise _ inner rest, words =>
      inner.acquirable words && rest.acquirable words

/-! ## Example data -/

/-- Two records for the examples: the idle thread and a default-priority
thread. -/
def exampleThreads : List THREAD :=
  [ { Valid := 1, Priority := 0, PriorityBoost := 0, MaxPriorityBoost := 0,
      ThreadIsRunning := 1, SuspendCount := 0, HandleOpen := 1, ThreadId := 0,
      ThreadTerminated := 0, SleepTime := 0, StackSize := 0x10000 },
    { Valid := 1, Priority := 7, PriorityBoost := 5, MaxPriorityBoost := 5,
      ThreadIsRunning := 0, SuspendCount := 1, HandleOpen := 1, ThreadId := 255,
      ThreadTerminated := 0, SleepTime := 0, StackSize := 0x10000 } ]

/-- A core at level 5 on processor 0 with every lock free. -/
def exampleCore : Core := ⟨⟨0, 5⟩, fun _ => 0⟩

/-- A spinlock pair around a raise pair around a second spinlock pair, followed
by a further raise pair. -/
def exampleNest : Nest :=
  .spin 100 (.raise 7 (.spin 104 .done .done) .done) (.raise 1 .done .done)

/-! ## Layout facts -/

theorem CONTEXT_Gpr_slot :
    CONTEXT.decl.slot? PACK "Gpr" = some ⟨"Gpr", 0x20, 0x100, .array .ulonglong 32⟩ := by
  rfl

theorem CONTEXT_Gpr_elemOffset (i : Nat) :
    CONTEXT.decl.elemOffset PACK "Gpr" i = if i < 32 then some (0x20 + 8 * i) else none := by
  unfold CType.elemOffset
  rw [CONTEXT_Gpr_slot]
  simp only []
  split
  · have h8 : CType.size PACK .ulonglong = 8 := rfl
    rw [h8, Nat.mul_comm]
  · rfl

theorem InterruptTable_slot :
    PROCESSOR_DATA_BLOCK.decl.slot? PACK "InterruptTable"
      = some ⟨"InterruptTable", 0x158, 0x80, .array .pointer 0x20⟩ := by
  rfl

theorem InterruptTable_elemOffset (i : Nat) :
    PROCESSOR_DATA_BLOCK.decl.elemOffset PACK "InterruptTable" i
      = if i < 0x20 then some (0x158 + 4 * i) else none := by
  unfold CType.elemOffset
  rw [InterruptTable_slot]
  simp only []
  split
  · have h4 : CType.size PACK .pointer = 4 := rfl
    rw [h4, Nat.mul_comm]
  · rfl

/-- C1: under `#pragma pack(1)`, `PROCESSOR_FPU_VPU_SAVE` is `0x108` bytes and
`CONTEXT` is `0x238` bytes, each the sum of its member sizes with no padding, and
the members of `CONTEXT` sit at `Msr 0x00, Iar 0x08, Lr 0x10, Ctr 0x18,
Gpr[i] 0x20 + 8*i` (exactly for `i < 32`), `Cr 0x120, Xer 0x128, FpuVpu 0x130`. -/
theorem context_layout_byte_exact :
    PROCESSOR_FPU_VPU_SAVE.decl.size PACK = 0x108
    ∧ CONTEXT.decl.size PACK = 0x238
    ∧ PROCESSOR_FPU_VPU_SAVE.decl.memberBytes PACK = PROCESSOR_FPU_VPU_SAVE.decl.size PACK
    ∧ CONTEXT.decl.memberBytes PACK = CONTEXT.decl.size PACK
    ∧ PROCESSOR_FPU_VPU_SAVE.decl.noPadding PACK = true
    ∧ CONTEXT.decl.noPadding PACK = true
    ∧ CONTEXT.decl.offsets PACK =
        [("Msr", 0x00), ("Iar", 0x08), ("Lr", 0x10), ("Ctr", 0x18), ("Gpr", 0x20),
         ("Cr", 0x120), ("Xer", 0x128), ("FpuVpu", 0x130)]
    ∧ ∀ i, CONTEXT.decl.elemOffset PACK "Gpr" i
        = if i < 32 then some (0x20 + 8 * i) else none := by
  refine ⟨by decide, by decide, by decide, by decide, by decide, by decide, by decide, ?_⟩
  exact CONTEXT_Gpr_elemOffset

/-- C2: in the packed `PROCESSOR_DATA_BLOCK` the documented offsets hold
(`IARSave 0x120, MSRSave 0x128, FPUVPUSave 0x130, CurrentProcessor 0x140,
Irq 0x141`) and no padding byte lies between consecutive members. -/
theorem processor_data_block_documented_offsets :
    PROCESSOR_DATA_BLOCK.decl.offsetOf PACK "IARSave" = some 0x120
    ∧ PROCESSOR_DATA_BLOCK.decl.offsetOf PACK "MSRSave" = some 0x128
    ∧ PROCESSOR_DATA_BLOCK.decl.offsetOf PACK "FPUVPUSave" = some 0x130
    ∧ PROCESSOR_DATA_BLOCK.decl.offsetOf PACK "CurrentProcessor" = some 0x140
    ∧ PROCESSOR_DATA_BLOCK.decl.offsetOf PACK "Irq" = some 0x141
    ∧ contiguousFrom 0 (PROCESSOR_DATA_BLOCK.decl.slots PACK) = true
    ∧ PROCESSOR_DATA_BLOCK.decl.noPadding PACK = true := by
  refine ⟨by decide, by decide, by decide, by decide, by decide, by decide, by decide⟩

/-- C3: in the packed `THREAD` every member sits at the offset its comment
documents and the structure is `0x274` bytes. -/
theorem thread_documented_offsets :
    THREAD.decl.offsets PACK =
      [("Context", 0x0), ("ThisProcessor", 0x238), ("NextThread", 0x23C),
       ("PreviousThread", 0x240), ("NextThreadFull", 0x244),
       ("PreviousThreadFull", 0x248), ("PreviousThreadReady", 0x24C),
       ("NextThreadReady", 0x250), ("Valid", 0x254), ("Priority", 0x255),
       ("PriorityBoost", 0x256), ("MaxPriorityBoost", 0x257),
       ("ThreadIsRunning", 0x258), ("SuspendCount", 0x259), ("HandleOpen", 0x25A),
       ("ThreadId", 0x25B), ("ThreadTerminated", 0x25C), ("Reserved", 0x25D),
       ("DebugData", 0x260), ("SleepTime", 0x264), ("StackBase", 0x26C),
       ("StackSize", 0x270)]
    ∧ THREAD.decl.size PACK = 0x274 := by
  refine ⟨by decide, by decide⟩

/-- The pragma is what makes the documented `THREAD` offsets hold: at natural
alignment `SleepTime` would move to `0x268` and the structure would grow. -/
theorem thread_layout_needs_pack :
    THREAD.decl.offsetOf NOPACK "SleepTime" = some 0x268
    ∧ THREAD.decl.size NOPACK = 0x278
    ∧ THREAD.decl.noPadding NOPACK = false := by
  refine ⟨by decide, by decide, by decide⟩

/-- C7: `InterruptTable` has exactly `0x20` slots: index `i` addresses a slot of
the table (at `0x158 + 4*i`, inside the table's `0x80` bytes) exactly when
`i < 32`; an index of 32 or more addresses none. -/
theorem interrupt_table_has_32_slots :
    (PROCESSOR_DATA_BLOCK.decl.slot? PACK "InterruptTable").map Slot.size = some (0x20 * 4)
    ∧ (∀ i, i < 32 →
        PROCESSOR_DATA_BLOCK.decl.elemOffset PACK "InterruptTable" i = some (0x158 + 4 * i)
        ∧ 0x158 + 4 * i + 4 ≤ 0x158 + 0x20 * 4)
    ∧ (∀ i, 32 ≤ i →
        PROCESSOR_DATA_BLOCK.decl.elemOffset PACK "InterruptTable" i = none) := by
  refine ⟨by rfl, ?_, ?_⟩
  · intro i hi
    rw [InterruptTable_elemOffset, if_pos hi]
    exact ⟨rfl, by omega⟩
  · intro i hi
    rw [InterruptTable_elemOffset, if_neg (by omega)]

/-- C7 at slot 31 (the last one). -/
theorem interrupt_table_has_32_slots_witness :
    (31 < 32 ∧
      PROCESSOR_DATA_BLOCK.decl.elemOffset PACK "InterruptTable" 31 = some (0x158 + 4 * 31))
    ∧ (32 ≤ 32 ∧
      PROCESSOR_DATA_BLOCK.decl.elemOffset PACK "InterruptTable" 32 = none) :=
  ⟨⟨by decide, (interrupt_table_has_32_slots.2.1 31 (by decide)).1⟩,
   ⟨by decide, interrupt_table_has_32_slots.2.2 32 (by decide)⟩⟩


/-! ## Ranges and conversions of the integer types -/

theorem uchar_holds_iff (v : Int) : CType.uchar.holds v = true ↔ 0 ≤ v ∧ v < 256 := by
  simp [CType.holds, CType.isSigned, CType.bits, CType.size]

theorem uchar_convert_eq (v : Int) : CType.uchar.convert v = v % 256 := by
  simp [CType.convert, CType.isSigned, CType.bits, CType.size]

theorem uint_convert_eq (v : Int) : CType.uint.convert v = v % 4294967296 := by
  simp [CType.convert, CType.isSigned, CType.bits, CType.size]

theorem int_convert_eq (v : Int) :
    CType.int.convert v = (v + 2147483648) % 4294967296 - 2147483648 := by
  simp [CType.convert, CType.isSigned, CType.bits, CType.size]

theorem THREAD_ThreadId_type :
    (THREAD.decl.slot? PACK "ThreadId").map Slot.type = some CType.uchar := by
  rfl

theorem fieldHolds_ThreadId (v : Int) :
    fieldHolds THREAD.decl "ThreadId" v = CType.uchar.holds v := by
  rfl

theorem fieldHolds_SuspendCount (v : Int) :
    fieldHolds THREAD.decl "SuspendCount" v = CType.uchar.holds v := by
  rfl

theorem fieldHolds_Irq (v : Int) :
    fieldHolds PROCESSOR_DATA_BLOCK.decl "Irq" v = CType.uchar.holds v := by
  rfl


theorem THREAD.wf_ThreadId (t : THREAD) (h : t.wf = true) :
    0 ≤ t.ThreadId ∧ t.ThreadId < 256 := by
  have h1 : fieldHolds THREAD.decl "ThreadId" t.ThreadId = true := by
    simp only [THREAD.wf, Bool.and_eq_true] at h
    exact h.1.1.1.2
  rw [fieldHolds_ThreadId] at h1
  exact (uchar_holds_iff _).1 h1

theorem THREAD.wf_SuspendCount (t : THREAD) (h : t.wf = true) :
    0 ≤ t.SuspendCount ∧ t.SuspendCount < 256 := by
  have h1 : fieldHolds THREAD.decl "SuspendCount" t.SuspendCount = true := by
    simp only [THREAD.wf, Bool.and_eq_true] at h
    exact h.1.1.1.1.1.2
  rw [fieldHolds_SuspendCount] at h1
  exact (uchar_holds_iff _).1 h1

theorem PROCESSOR_DATA_BLOCK.wf_Irq (p : PROCESSOR_DATA_BLOCK) (h : p.wf = true) :
    0 ≤ p.Irq ∧ p.Irq < 256 := by
  have h1 : fieldHolds PROCESSOR_DATA_BLOCK.decl "Irq" p.Irq = true := by
    simp only [PROCESSOR_DATA_BLOCK.wf, Bool.and_eq_true] at h
    exact h.2
  rw [fieldHolds_Irq] at h1
  exact (uchar_holds_iff _).1 h1

/-- A list of naturals below `n` without repetition has at most `n` entries. -/
theorem length_le_of_nodup_lt (n : Nat) (l : List Nat) (hnd : l.Nodup)
    (hlt : ∀ x ∈ l, x < n) : l.length ≤ n := by
  have hsub : l ⊆ List.range n := fun x hx => List.mem_range.2 (hlt x hx)
  have := (List.subperm_of_subset hnd hsub).length_le
  simpa using this

/-- C4: every value the `ThreadId` member can hold lies in
`[0, MAX_THREAD_COUNT)`, and any collection of `THREAD` records with pairwise
distinct `ThreadId` values has at most `MAX_THREAD_COUNT` members. -/
theorem thread_id_range_bounds_thread_count :
    (∀ v : Int, fieldHolds THREAD.decl "ThreadId" v = true →
        0 ≤ v ∧ v < (MAX_THREAD_COUNT : Int))
    ∧ (∀ ts : List THREAD, (∀ t ∈ ts, t.wf = true) →
        ts.Pairwise (fun a b => a.ThreadId ≠ b.ThreadId) →
        ts.length ≤ MAX_THREAD_COUNT) := by
  constructor
  · intro v hv
    rw [fieldHolds_ThreadId] at hv
    have := (uchar_holds_iff v).1 hv
    simpa [MAX_THREAD_COUNT] using this
  · intro ts hwf hpw
    have hlen : (ts.map (fun t => t.ThreadId.toNat)).length ≤ 256 := by
      apply length_le_of_nodup_lt
      · rw [List.Nodup, List.pairwise_map]
        refine List.Pairwise.imp_of_mem ?_ hpw
        intro a b ha hb hab heq
        have h1 := THREAD.wf_ThreadId a (hwf a ha)
        have h2 := THREAD.wf_ThreadId b (hwf b hb)
        apply hab
        omega
      · intro x hx
        rcases List.mem_map.1 hx with ⟨t, ht, rfl⟩
        have h1 := THREAD.wf_ThreadId t (hwf t ht)
        omega
    simpa [MAX_THREAD_COUNT] using hlen


/-- C4 at two concrete records with identifiers 0 and 255. -/
theorem thread_id_range_bounds_thread_count_witness :
    (0 ≤ (255 : Int) ∧ (255 : Int) < (MAX_THREAD_COUNT : Int))
    ∧ exampleThreads.length ≤ MAX_THREAD_COUNT :=
  ⟨thread_id_range_bounds_thread_count.1 255 (by decide),
   thread_id_range_bounds_thread_count.2 exampleThreads (by decide) (by decide)⟩

theorem SUSPEND_COUNT_MAX_eq : SUSPEND_COUNT_MAX = 255 := by
  simp [SUSPEND_COUNT_MAX, CType.bits, CType.size]

theorem suspendResult_eq (c : Int) (h0 : 0 ≤ c) (h1 : c < 256) : suspendResult c = c := by
  rw [suspendResult, int_convert_eq]
  omega

/-- C5: on a well-formed thread, `thread_suspend` at the maximum count (255)
and `thread_resume` at count 0 return -1 and change nothing; otherwise each
returns the count held before the call, and suspend raises the count by exactly
1 while resume lowers it by exactly 1. -/
theorem suspend_resume_return_previous_count (t : THREAD) (h : t.wf = true) :
    SUSPEND_COUNT_MAX = 255
    ∧ (t.SuspendCount = SUSPEND_COUNT_MAX → thread_suspend t = (-1, t))
    ∧ (t.SuspendCount ≠ SUSPEND_COUNT_MAX →
        (thread_suspend t).1 = t.SuspendCount
        ∧ (thread_suspend t).2.SuspendCount = t.SuspendCount + 1)
    ∧ (t.SuspendCount = 0 → thread_resume t = (-1, t))
    ∧ (t.SuspendCount ≠ 0 →
        (thread_resume t).1 = t.SuspendCount
        ∧ (thread_resume t).2.SuspendCount = t.SuspendCount - 1) := by
  have hc := THREAD.wf_SuspendCount t h
  refine ⟨SUSPEND_COUNT_MAX_eq, ?_, ?_, ?_, ?_⟩
  · intro hmax
    simp [thread_suspend, hmax]
  · intro hne
    have hne2 : t.SuspendCount ≠ 255 := by rw [← SUSPEND_COUNT_MAX_eq]; exact hne
    simp only [thread_suspend, if_neg hne]
    refine ⟨suspendResult_eq _ hc.1 hc.2, ?_⟩
    rw [uchar_convert_eq]
    omega
  · intro h0
    simp [thread_resume, h0]
  · intro hne
    simp only [thread_resume, if_neg hne]
    refine ⟨suspendResult_eq _ hc.1 hc.2, ?_⟩
    rw [uchar_convert_eq]
    omega

/-- C9: for every value `c` the `unsigned char SuspendCount` member can hold, the
value reported through the `int` result is `c` itself, is non-negative and
differs from the failure value -1. -/
theorem suspend_failure_value_unambiguous (c : Int)
    (h : fieldHolds THREAD.decl "SuspendCount" c = true) :
    suspendResult c = c ∧ 0 ≤ suspendResult c ∧ suspendResult c ≠ -1 := by
  rw [fieldHolds_SuspendCount] at h
  have hc := (uchar_holds_iff c).1 h
  rw [suspendResult_eq c hc.1 hc.2]
  omega

/-- C10: every value `v` of the `unsigned char Irq` member comes back unchanged
after conversion to `int`, then to `unsigned int`, then to `unsigned char`. -/
theorem irql_survives_conversions (v : Int)
    (h : fieldHolds PROCESSOR_DATA_BLOCK.decl "Irq" v = true) :
    irqlRoundTrip v = v := by
  rw [fieldHolds_Irq] at h
  have hv := (uchar_holds_iff v).1 h
  rw [irqlRoundTrip, uchar_convert_eq, uint_convert_eq, int_convert_eq]
  omega


/-! ## Interrupt level save and restore -/

theorem dispatch_level_as_uint : CType.uint.convert DISPATCH_LEVEL = 2 := by
  rw [uint_convert_eq, DISPATCH_LEVEL]
  rfl

theorem Core.setIrq_words (c : Core) (v : Int) : (c.setIrq v).words = c.words := rfl

theorem Core.setIrq_Irq (c : Core) (v : Int) :
    (c.setIrq v).block.Irq = CType.uchar.convert v := rfl

theorem Core.setWord_block (c : Core) (a v : Int) : (c.setWord a v).block = c.block := rfl

theorem Core.setWord_words (c : Core) (a v : Int) :
    (c.setWord a v).words = fun x => if x = a then v else c.words x := rfl

/-- The level a release stores when it is handed the value an acquisition
returned. -/
theorem restored_level (v : Int) (h0 : 0 ≤ v) (h1 : v < 256) :
    CType.uchar.convert (CType.uint.convert (CType.int.convert v)) = v := by
  rw [uchar_convert_eq, uint_convert_eq, int_convert_eq]
  omega

theorem spinAcquire_free (fuel : Nat) (addr : Int) (c : Core) (h : c.words addr = 0) :
    spinAcquire (fuel + 1) addr c = some (c.setWord addr 1) := by
  simp [spinAcquire, h]

theorem thread_spinlock_free (fuel : Nat) (addr : Int) (c : Core)
    (h : c.words addr = 0) :
    thread_spinlock (fuel + 1) addr c
      = some (CType.int.convert c.block.Irq, (c.setIrq 2).setWord addr 1) := by
  simp only [thread_spinlock, thread_raise_irql, dispatch_level_as_uint]
  rw [spinAcquire_free fuel addr (c.setIrq 2) h]
  rfl

theorem spinAcquire_some (fuel : Nat) (addr : Int) (c c1 : Core)
    (h : spinAcquire fuel addr c = some c1) : c1 = c.setWord addr 1 := by
  induction fuel with
  | zero => simp [spinAcquire] at h
  | succ n ih =>
    simp only [spinAcquire] at h
    split at h
    · exact (Option.some.inj h).symm
    · exact ih h

/-- Releasing a lock that was free before it was taken puts the lock words back. -/
theorem words_restored (words : Int → Int) (addr : Int) (h : words addr = 0) :
    (fun x => if x = addr then 0 else (fun a => if a = addr then 1 else words a) x) = words := by
  funext x
  by_cases hx : x = addr
  · simp [hx, h]
  · simp [hx]

theorem Nest.run_restores (fuel : Nat) (p : Nest) :
    ∀ c : Core, 0 ≤ c.block.Irq → c.block.Irq < 256 → p.acquirable c.words = true →
      ∃ log c2, p.run (fuel + 1) c = some (log, c2)
        ∧ c2.block.Irq = c.block.Irq ∧ c2.words = c.words
        ∧ ∀ stack tail final,
            restoresLIFO stack (log ++ tail) final = restoresLIFO stack tail final := by
  induction p with
  | done =>
    intro c _ _ _
    exact ⟨[], c, rfl, rfl, rfl, fun _ _ _ => rfl⟩
  | spin addr inner rest ihInner ihRest =>
    intro c h0 h1 hacq
    simp only [Nest.acquirable, Bool.and_eq_true, decide_eq_true_eq] at hacq
    obtain ⟨⟨hfree, hin⟩, hrest⟩ := hacq
    have hlvl : CType.uchar.convert 2 = 2 := by rw [uchar_convert_eq]; rfl
    obtain ⟨log1, c2, hrun1, hirq1, hw1, hlog1⟩ :=
      ihInner ((c.setIrq 2).setWord addr 1)
        (by rw [Core.setWord_block, Core.setIrq_Irq, hlvl]; decide)
        (by rw [Core.setWord_block, Core.setIrq_Irq, hlvl]; decide)
        hin
    have hc3irq : (thread_unlock addr (CType.uint.convert (CType.int.convert c.block.Irq))
        c2).block.Irq = c.block.Irq := restored_level _ h0 h1
    have hc3w : (thread_unlock addr (CType.uint.convert (CType.int.convert c.block.Irq))
        c2).words = c.words := by
      show (fun x => if x = addr then 0 else c2.words x) = c.words
      rw [hw1]
      exact words_restored c.words addr hfree
    obtain ⟨log2, c4, hrun2, hirq2, hw2, hlog2⟩ :=
      ihRest (thread_unlock addr (CType.uint.convert (CType.int.convert c.block.Irq)) c2)
        (by rw [hc3irq]; exact h0) (by rw [hc3irq]; exact h1) (by rw [hc3w]; exact hrest)
    refine ⟨Event.acquire c.block.Irq :: log1 ++ Event.release c.block.Irq :: log2, c4,
      ?_, hirq2.trans hc3irq, hw2.trans hc3w, ?_⟩
    · simp only [Nest.run, thread_spinlock_free fuel addr c hfree, hrun1, hrun2, hc3irq]
    · intro stack tail final
      simp only [List.cons_append, List.append_assoc, restoresLIFO, hlog1, hlog2,
        beq_self_eq_true, Bool.true_and]
  | raise level inner rest ihInner ihRest =>
    intro c h0 h1 hacq
    simp only [Nest.acquirable, Bool.and_eq_true] at hacq
    obtain ⟨hin, hrest⟩ := hacq
    have hr0 : 0 ≤ (c.setIrq (CType.uint.convert level)).block.Irq := by
      rw [Core.setIrq_Irq, uchar_convert_eq]; omega
    have hr1 : (c.setIrq (CType.uint.convert level)).block.Irq < 256 := by
      rw [Core.setIrq_Irq, uchar_convert_eq]; omega
    obtain ⟨log1, c2, hrun1, hirq1, hw1, hlog1⟩ :=
      ihInner (c.setIrq (CType.uint.convert level)) hr0 hr1 hin
    have hc3irq : (thread_lower_irql (CType.uint.convert (CType.int.convert c.block.Irq))
        c2).block.Irq = c.block.Irq := restored_level _ h0 h1
    have hc3w : (thread_lower_irql (CType.uint.convert (CType.int.convert c.block.Irq))
        c2).words = c.words := hw1
    obtain ⟨log2, c4, hrun2, hirq2, hw2, hlog2⟩ :=
      ihRest (thread_lower_irql (CType.uint.convert (CType.int.convert c.block.Irq)) c2)
        (by rw [hc3irq]; exact h0) (by rw [hc3irq]; exact h1) (by rw [hc3w]; exact hrest)
    refine ⟨Event.acquire c.block.Irq :: log1 ++ Event.release c.block.Irq :: log2, c4,
      ?_, hirq2.trans hc3irq, hw2.trans hc3w, ?_⟩
    · simp only [Nest.run, thread_raise_irql, hrun1, hrun2, hc3irq]
    · intro stack tail final
      simp only [List.cons_append, List.append_assoc, restoresLIFO, hlog1, hlog2,
        beq_self_eq_true, Bool.true_and]


/-- C6: for every lock address and every level `v` held in the core's `Irq`
member, `thread_spinlock` on a free lock returns `v` and leaves the core at
level 2, and `thread_unlock` with the returned value puts `Irq` back to `v`;
whenever `thread_spinlock` returns at all it returns `v` with the core at level 2
and the following `thread_unlock` restores `v`; and every properly nested run of
spinlock/unlock and raise/lower pairs (each lock free when reached) completes,
each release restoring the level seen before its own acquisition, innermost
first, so that the run ends at the starting level. -/
theorem spinlock_unlock_restores_irql :
    (∀ (addr : Int) (c : Core) (fuel : Nat), c.block.wf = true → c.words addr = 0 →
        ∃ c1, thread_spinlock (fuel + 1) addr c = some (c.block.Irq, c1)
          ∧ c1.block.Irq = 2
          ∧ (thread_unlock addr (CType.uint.convert c.block.Irq) c1).block.Irq
              = c.block.Irq)
    ∧ (∀ (addr : Int) (c c1 : Core) (fuel : Nat) (r : Int), c.block.wf = true →
        thread_spinlock fuel addr c = some (r, c1) →
        r = c.block.Irq ∧ c1.block.Irq = 2
          ∧ (thread_unlock addr (CType.uint.convert r) c1).block.Irq = c.block.Irq)
    ∧ (∀ (p : Nest) (c : Core) (fuel : Nat), c.block.wf = true →
        p.acquirable c.words = true →
        ∃ log c2, p.run (fuel + 1) c = some (log, c2)
          ∧ restoresLIFO [] log [] = true
          ∧ c2.block.Irq = c.block.Irq) := by
  refine ⟨?_, ?_, ?_⟩
  · intro addr c fuel hwf hfree
    have hv := PROCESSOR_DATA_BLOCK.wf_Irq c.block hwf
    have hret : CType.int.convert c.block.Irq = c.block.Irq := by
      rw [int_convert_eq]; omega
    refine ⟨(c.setIrq 2).setWord addr 1, ?_, ?_, ?_⟩
    · rw [thread_spinlock_free fuel addr c hfree, hret]
    · rw [Core.setWord_block, Core.setIrq_Irq, uchar_convert_eq]; rfl
    · have := restored_level c.block.Irq hv.1 hv.2
      rw [hret] at this
      exact this
  · intro addr c c1 fuel r hwf hrun
    have hv := PROCESSOR_DATA_BLOCK.wf_Irq c.block hwf
    have hret : CType.int.convert c.block.Irq = c.block.Irq := by
      rw [int_convert_eq]; omega
    simp only [thread_spinlock, thread_raise_irql, dispatch_level_as_uint,
      Option.map_eq_some', Prod.mk.injEq] at hrun
    obtain ⟨c2, hacq, hr, hc⟩ := hrun
    have hc2 := spinAcquire_some fuel addr _ _ hacq
    subst hc
    subst hc2
    rw [hret] at hr
    subst hr
    refine ⟨rfl, ?_, ?_⟩
    · rw [Core.setWord_block, Core.setIrq_Irq, uchar_convert_eq]; rfl
    · have := restored_level c.block.Irq hv.1 hv.2
      rw [hret] at this
      exact this
  · intro p c fuel hwf hacq
    have hv := PROCESSOR_DATA_BLOCK.wf_Irq c.block hwf
    obtain ⟨log, c2, hrun, hirq, _, hlog⟩ := Nest.run_restores fuel p c hv.1 hv.2 hacq
    refine ⟨log, c2, hrun, ?_, hirq⟩
    have := hlog [] [] []
    rw [List.append_nil] at this
    rw [this]
    rfl

/-- C6 at a core at level 5: one spinlock/unlock pair on lock 100, and the nest
`exampleNest`, whose releases restore 7, 2, 5 and then 5. -/
theorem spinlock_unlock_restores_irql_witness :
    (∃ c1, thread_spinlock 1 100 exampleCore = some (5, c1)
        ∧ c1.block.Irq = 2
        ∧ (thread_unlock 100 (CType.uint.convert 5) c1).block.Irq = 5)
    ∧ (∃ log c2, exampleNest.run 1 exampleCore = some (log, c2)
        ∧ restoresLIFO [] log [] = true
        ∧ c2.block.Irq = 5)
    ∧ (exampleNest.run 1 exampleCore).map Prod.fst
        = some [Event.acquire 5, Event.acquire 2, Event.acquire 7, Event.release 7,
                Event.release 2, Event.release 5, Event.acquire 5, Event.release 5] :=
  ⟨spinlock_unlock_restores_irql.1 100 exampleCore 0 (by decide) (by decide),
   spinlock_unlock_restores_irql.2.2 exampleNest exampleCore 0 (by decide) (by decide),
   by decide⟩

/-- C5 at the second example thread (count 1) and at a saturated copy of it. -/
theorem suspend_resume_return_previous_count_witness :
    thread_suspend { exampleThreads[1] with SuspendCount := 255 }
        = (-1, { exampleThreads[1] with SuspendCount := 255 })
    ∧ (thread_resume exampleThreads[1]).1 = 1
    ∧ (thread_resume exampleThreads[1]).2.SuspendCount = 0
    ∧ thread_resume exampleThreads[0] = (-1, exampleThreads[0]) :=
  ⟨(suspend_resume_return_previous_count
      { exampleThreads[1] with SuspendCount := 255 } (by decide)).2.1 (by decide),
   ((suspend_resume_return_previous_count exampleThreads[1] (by decide)).2.2.2.2
      (by decide)).1,
   ((suspend_resume_return_previous_count exampleThreads[1] (by decide)).2.2.2.2
      (by decide)).2,
   (suspend_resume_return_previous_count exampleThreads[0] (by decide)).2.2.2.1
      (by decide)⟩

/-- C9 at the largest count, 255. -/
theorem suspend_failure_value_unambiguous_witness :
    fieldHolds THREAD.decl "SuspendCount" 255 = true
    ∧ suspendResult 255 = 255 ∧ 0 ≤ suspendResult 255 ∧ suspendResult 255 ≠ -1 :=
  ⟨by decide, suspend_failure_value_unambiguous 255 (by decide)⟩

/-- C10 at the largest level, 255. -/
theorem irql_survives_conversions_witness :
    fieldHolds PROCESSOR_DATA_BLOCK.decl "Irq" 255 = true ∧ irqlRoundTrip 255 = 255 :=
  ⟨by decide, irql_survives_conversions 255 (by decide)⟩

end Xenon
